import Mathlib

/-!
Shallow embedding of the core of the climate package (climate.go): plan
construction from a function or a struct type, the error-to-exit-code
mapping, and the execution orchestrator with its context lifecycle.
Stateful parts of `Run` (metadata decoding, context creation and
cancellation, the `execute` call, process exit) are made observable as an
ordered trace of events.
-/

namespace Climate

/-- Go reflection kinds (`reflect.Kind`) as far as the construction checks
consult them: `func` and `structK` are the two accepted kinds, the rest
are a representative sample of the remaining kinds a value may have. -/
inductive Kind where
  | func
  | structK
  | intK
  | stringK
  | sliceK
  | pointerK
  | boolK
  deriving DecidableEq

/-- A (non-nil-interface) Go value as seen through `reflect.TypeOf`: the
construction checks in climate.go consult only its kind. -/
structure AnyValue where
  kind : Kind
  deriving DecidableEq

/-- Construction-time and decode-time fatal failures: `assert.Truef`
aborting on an unsupported shape is embedded as the `invalidShapeKind`
error of an `Except`, and a malformed metadata payload as
`malformedMetadata`. -/
inductive Failure where
  | invalidShapeKind (msg : String)
  | malformedMetadata
  deriving DecidableEq

/-- The reflection descriptor stored by the builders: the introspected
kind stands in for the `reflect.Type` (`ot`) kept in climate.go's
`reflection` struct. -/
structure reflection where
  ot : Kind
  deriving DecidableEq

/-- funcPlan (climate.go): wraps the reflection descriptor of a function
value. -/
structure funcPlan where
  r : reflection
  deriving DecidableEq

/-- structPlan (climate.go): wraps the reflection descriptor of a struct
type together with its ordered subcommand children. -/
inductive structPlan where
  | mk (r : reflection) (subcommands : List structPlan)

/-- Func (climate.go): `t := reflect.TypeOf(f)`, assert
`t.Kind() == reflect.Func` ("not a func"), then wrap the descriptor; the
abort on a non-function value is embedded as `Except.error`. -/
def Func (f : AnyValue) : Except Failure funcPlan :=
  if f.kind = Kind.func then
    Except.ok { r := { ot := f.kind } }
  else
    Except.error (Failure.invalidShapeKind "not a func")

/-- Struct (climate.go): with `t` the type parameter (obtained in Go as
`reflect.TypeOf((*T)(nil)).Elem()`), assert `t.Kind() == reflect.Struct`
("not a struct"), then wrap the descriptor and the subcommand list; the
abort on a non-struct type is embedded as `Except.error`. -/
def Struct (T : Kind) (subcommands : List structPlan) : Except Failure structPlan :=
  if T = Kind.structK then
    Except.ok (structPlan.mk { ot := T } subcommands)
  else
    Except.error (Failure.invalidShapeKind "not a struct")

/-- A non-nil Go `error` value as far as `exitCode`'s type switch can
observe it: its dynamic type plus the payload that case reads. `exitErr`
is a `*exitError` carrying an intended exit code, `execExitErr` is an
`*exec.ExitError` whose `ExitCode()` reports the given code (the code the
terminated subprocess exited with), `wrapped` is an error of any other
dynamic type that wraps a cause (for example `fmt.Errorf` with `%w`), and
`other` is any further error value. -/
inductive GoError where
  | exitErr (code : Int)
  | execExitErr (code : Int)
  | wrapped (cause : GoError) (msg : String)
  | other (msg : String)
  deriving DecidableEq

/-- Whether the error's own dynamic type is `*exitError`. -/
def GoError.isExplicitExit : GoError → Bool
  | GoError.exitErr _ => true
  | _ => false

/-- Whether the error's own dynamic type is `*exec.ExitError`. -/
def GoError.isSubprocessExit : GoError → Bool
  | GoError.execExitErr _ => true
  | _ => false

/-- exitCode (climate.go): nil error maps to 0; then a type switch on the
dynamic type maps `*exitError` to its `code` field, `*exec.ExitError` to
its `ExitCode()`, and every other dynamic type (wrapping errors included,
since the switch never unwraps) to 1. -/
def exitCode : Option GoError → Int
  | none => 0
  | some (GoError.exitErr code) => code
  | some (GoError.execExitErr code) => code
  | some (GoError.wrapped _ _) => 1
  | some (GoError.other _) => 1

/-- A Go byte slice: `none` is the nil slice, `some` a (possibly empty)
non-nil slice of bytes. -/
abbrev ByteSlice := Option (List Nat)

/-- Modelled from the spec: `internal.Metadata` lives in the internal
package, which is not under src/. The spec describes it only as the
structured, read-only decoding of an opaque byte payload, so the model
keeps the payload it was decoded from. -/
structure Metadata where
  decodedFrom : ByteSlice
  deriving DecidableEq

/-- Modelled from the spec: `internal.DecodeAsMetadata` (not under src/)
decodes the opaque payload into the structured `Metadata` form. -/
def DecodeAsMetadata (b : ByteSlice) : Metadata :=
  { decodedFrom := b }

/-- runOptions (climate.go): the `metadata *[]byte` field; `none` is the
nil pointer, `some b` a pointer at payload `b`. -/
structure runOptions where
  metadata : Option ByteSlice
  deriving DecidableEq

/-- The zero value `var opts runOptions`: a nil metadata pointer. -/
def runOptions.zero : runOptions :=
  { metadata := none }

/-- WithMetadata (climate.go): returns a modifier that points the options
at the given payload (`opts.metadata = &b`), also when `b` is the nil
slice. -/
def WithMetadata (b : ByteSlice) : runOptions → runOptions :=
  fun opts => { opts with metadata := some b }

/-- A context value: `gen` counts how many `WithCancel` derivations
separate it from its root (so a derived child is distinct from its
parent), and `cancelled` is the cancellation state it observes. -/
structure Context where
  gen : Nat
  cancelled : Bool
  deriving DecidableEq

/-- context.Background(). -/
def Context.background : Context :=
  { gen := 0, cancelled := false }

/-- context.WithCancel: the derived cancellable child context (the paired
`cancel` function shows up as the `Event.cancelled` trace entry). -/
def Context.withCancel (parent : Context) : Context :=
  { gen := parent.gen + 1, cancelled := parent.cancelled }

/-- The `plan` interface (climate.go): anything with
`execute(context.Context, *internal.Metadata) error`. -/
structure Plan where
  execute : Context → Option Metadata → Option GoError

/-- Observable effects of one orchestrator call, in order of occurrence:
metadata decoding, context creation (recording parent and child), the
`execute` invocation (recording the context and metadata it receives),
context cancellation, and process termination via `os.Exit`. -/
inductive Event where
  | decode (payload : ByteSlice)
  | ctxCreated (parent child : Context)
  | executed (ctx : Context) (md : Option Metadata)
  | cancelled (ctx : Context)
  | osExit (code : Int)
  deriving DecidableEq

/-- Whether a trace event is a context creation. -/
def Event.isCtxCreated : Event → Bool
  | Event.ctxCreated _ _ => true
  | _ => false

/-- Whether a trace event is a metadata decode. -/
def Event.isDecode : Event → Bool
  | Event.decode _ => true
  | _ => false

/-- Whether a trace event is a process exit. -/
def Event.isOsExit : Event → Bool
  | Event.osExit _ => true
  | _ => false

/-- The options `Run` accumulates by `for _, mod := range mods`: the
modifiers folded in order over the zero value. -/
def foldMods (mods : List (runOptions → runOptions)) : runOptions :=
  mods.foldl (fun opts mod => mod opts) runOptions.zero

/-- The metadata `Run` hands to `execute`: decoded exactly when the final
metadata pointer is non-nil (`if opts.metadata != nil`). -/
def runMetadata (mods : List (runOptions → runOptions)) : Option Metadata :=
  match (foldMods mods).metadata with
  | none => none
  | some b => some (DecodeAsMetadata b)

/-- Run (climate.go): fold the modifiers over zero-valued options, decode
the metadata iff its pointer is non-nil, derive a cancellable context from
the caller's context, invoke `plan.execute`, run the deferred `cancel()`,
and return `exitCode` of the result. The second component is the ordered
trace of observable effects up to the return. -/
def Run (ctx : Context) (p : Plan) (mods : List (runOptions → runOptions)) :
    Int × List Event :=
  let md := runMetadata mods
  let child := Context.withCancel ctx
  let err := p.execute child md
  (exitCode err,
    (match (foldMods mods).metadata with
      | none => []
      | some b => [Event.decode b]) ++
      [Event.ctxCreated ctx child, Event.executed child md,
        Event.cancelled child])

/-- RunAndExit (climate.go):
`os.Exit(Run(context.Background(), p, mods...))`; its trace is Run's trace
followed by the process exit with Run's code, and nothing follows it. -/
def RunAndExit (p : Plan) (mods : List (runOptions → runOptions)) : List Event :=
  let r := Run Context.background p mods
  r.2 ++ [Event.osExit r.1]

/-- Claim C1: for every plan whose execute returns nil, Run returns exit
code 0; for every plan whose execute returns a plain domain error (one
that is neither an explicit-exit-code error nor a subprocess-termination
error), Run returns the generic failure code 1. -/
theorem run_nil_zero_plain_one (ctx : Context) (p : Plan)
    (mods : List (runOptions → runOptions)) :
    (p.execute (Context.withCancel ctx) (runMetadata mods) = none →
      (Run ctx p mods).1 = 0) ∧
    (∀ e, p.execute (Context.withCancel ctx) (runMetadata mods) = some e →
      e.isExplicitExit = false → e.isSubprocessExit = false →
      (Run ctx p mods).1 = 1) := by
  constructor
  · intro h
    simp only [Run, h, exitCode]
  · intro e h hx hs
    cases e with
    | exitErr c => simp [GoError.isExplicitExit] at hx
    | execExitErr c => simp [GoError.isSubprocessExit] at hs
    | wrapped cause msg => simp only [Run, h, exitCode]
    | other msg => simp only [Run, h, exitCode]

/-- Witness for C1 at two concrete plans: one whose execute returns nil
(code 0) and one returning a plain domain error (code 1). -/
theorem run_nil_zero_plain_one_w :
    (Run Context.background { execute := fun _ _ => none } []).1 = 0 ∧
    (Run Context.background
      { execute := fun _ _ => some (GoError.other "boom") } []).1 = 1 :=
  ⟨(run_nil_zero_plain_one Context.background _ []).1 rfl,
    (run_nil_zero_plain_one Context.background _ []).2
      (GoError.other "boom") rfl rfl rfl⟩

/-- Claim C2: for every integer N and every plan whose execute returns an
error explicitly carrying process exit code N, Run returns exit code N. -/
theorem run_explicit_exit_code (ctx : Context) (p : Plan)
    (mods : List (runOptions → runOptions)) (n : Int)
    (h : p.execute (Context.withCancel ctx) (runMetadata mods) =
      some (GoError.exitErr n)) :
    (Run ctx p mods).1 = n := by
  simp only [Run, h, exitCode]

/-- Witness for C2 at a concrete plan carrying exit code 42. -/
theorem run_explicit_exit_code_w :
    (Run Context.background
      { execute := fun _ _ => some (GoError.exitErr 42) } []).1 = 42 :=
  run_explicit_exit_code Context.background _ [] 42 rfl

/-- Claim C3: for every integer M and every plan whose execute returns a
wrapped subprocess-termination error whose underlying external process
exited with code M, Run returns exit code M. -/
theorem run_subprocess_exit_code (ctx : Context) (p : Plan)
    (mods : List (runOptions → runOptions)) (m : Int)
    (h : p.execute (Context.withCancel ctx) (runMetadata mods) =
      some (GoError.execExitErr m)) :
    (Run ctx p mods).1 = m := by
  simp only [Run, h, exitCode]

/-- Witness for C3 at a concrete plan whose subprocess exited with 7. -/
theorem run_subprocess_exit_code_w :
    (Run Context.background
      { execute := fun _ _ => some (GoError.execExitErr 7) } []).1 = 7 :=
  run_subprocess_exit_code Context.background _ [] 7 rfl

/-- Claim C4: every call to Run creates exactly one cancellable execution
context, derived from the caller-supplied parent context, and that context
is cancelled before Run returns on every exit path, so no execution
context outlives its Run call: the trace contains exactly one creation,
its parent is the caller's context, and the last event before returning is
the cancellation of the created context. -/
theorem run_context_lifecycle (ctx : Context) (p : Plan)
    (mods : List (runOptions → runOptions)) :
    (Run ctx p mods).2.filter Event.isCtxCreated =
      [Event.ctxCreated ctx (Context.withCancel ctx)] ∧
    (∀ parent child, Event.ctxCreated parent child ∈ (Run ctx p mods).2 →
      parent = ctx ∧ child = Context.withCancel ctx ∧
      (Run ctx p mods).2.getLast? = some (Event.cancelled child)) := by
  rcases h : (foldMods mods).metadata with _ | b
  · constructor
    · simp [Run, h, Event.isCtxCreated]
    · intro parent child hmem
      simp only [Run, h] at hmem ⊢
      simp only [List.nil_append, List.mem_cons, List.not_mem_nil, or_false] at hmem
      rcases hmem with h1 | h1 | h1 <;> cases h1
      exact ⟨rfl, rfl, rfl⟩
  · constructor
    · simp [Run, h, Event.isCtxCreated]
    · intro parent child hmem
      simp only [Run, h] at hmem ⊢
      simp only [List.cons_append, List.nil_append, List.mem_cons,
        List.not_mem_nil, or_false] at hmem
      rcases hmem with h1 | h1 | h1 | h1 <;> cases h1
      exact ⟨rfl, rfl, rfl⟩

/-- Witness for C4 at a concrete run: the trace holds exactly one context
creation, and the run's last event cancels the created context. -/
theorem run_context_lifecycle_w :
    (Run Context.background { execute := fun _ _ => none } []).2.filter
        Event.isCtxCreated =
      [Event.ctxCreated Context.background
        (Context.withCancel Context.background)] ∧
    (Run Context.background { execute := fun _ _ => none } []).2.getLast? =
      some (Event.cancelled (Context.withCancel Context.background)) :=
  ⟨(run_context_lifecycle Context.background _ []).1,
    ((run_context_lifecycle Context.background _ []).2 Context.background
      (Context.withCancel Context.background) (by simp [Run, foldMods,
        runOptions.zero])).2.2⟩

/-- Claim C6: RunAndExit is the sole process-exit point in the core: it
calls Run and terminates the process with the resulting code as its final
act (nothing follows the exit in its trace), while Run itself never emits
a process exit and always returns the integer exit code of its plan's
execute result to its caller. -/
theorem runAndExit_sole_exit_point (p : Plan)
    (mods : List (runOptions → runOptions)) :
    (RunAndExit p mods).getLast? =
      some (Event.osExit (Run Context.background p mods).1) ∧
    (∀ ctx c, Event.osExit c ∉ (Run ctx p mods).2) ∧
    (∀ ctx, (Run ctx p mods).1 =
      exitCode (p.execute (Context.withCancel ctx) (runMetadata mods))) := by
  refine ⟨?_, ?_, fun ctx => rfl⟩
  · simp [RunAndExit]
  · intro ctx c
    rcases h : (foldMods mods).metadata with _ | b <;> simp [Run, h]

/-- Witness for C6 at a concrete plan: the RunAndExit trace ends with the
process exit carrying Run's code, and the Run trace contains no exit. -/
theorem runAndExit_sole_exit_point_w :
    (RunAndExit { execute := fun _ _ => some (GoError.exitErr 5) } []).getLast? =
      some (Event.osExit
        (Run Context.background
          { execute := fun _ _ => some (GoError.exitErr 5) } []).1) ∧
    Event.osExit 5 ∉
      (Run Context.background
        { execute := fun _ _ => some (GoError.exitErr 5) } []).2 :=
  ⟨(runAndExit_sole_exit_point _ []).1,
    (runAndExit_sole_exit_point _ []).2.1 Context.background 5⟩

/-- Claim C5: plan construction fails fast with InvalidShapeKind on an
unsupported kind: Func f fails iff f's underlying value is not a function,
Struct T fails iff the type parameter T is not a struct type, and on the
matching kind each builder returns a plan without error. -/
theorem construction_invalid_shape (f : AnyValue) (T : Kind)
    (subs : List structPlan) :
    ((∃ fp, Func f = Except.ok fp) ↔ f.kind = Kind.func) ∧
    (f.kind ≠ Kind.func →
      Func f = Except.error (Failure.invalidShapeKind "not a func")) ∧
    ((∃ sp, Struct T subs = Except.ok sp) ↔ T = Kind.structK) ∧
    (T ≠ Kind.structK →
      Struct T subs = Except.error (Failure.invalidShapeKind "not a struct")) := by
  refine ⟨?_, ?_, ?_, ?_⟩
  · by_cases hk : f.kind = Kind.func <;> simp [Func, hk]
  · intro hk
    simp [Func, hk]
  · by_cases hk : T = Kind.structK <;> simp [Struct, hk]
  · intro hk
    simp [Struct, hk]

/-- Witness for C5: Func on an int value fails with InvalidShapeKind,
Struct on a struct kind succeeds. -/
theorem construction_invalid_shape_w :
    Func { kind := Kind.intK } =
      Except.error (Failure.invalidShapeKind "not a func") ∧
    (∃ sp, Struct Kind.structK [] = Except.ok sp) :=
  ⟨(construction_invalid_shape { kind := Kind.intK } Kind.structK []).2.1
      (by decide),
    (construction_invalid_shape { kind := Kind.intK } Kind.structK
      []).2.2.1.mpr rfl⟩

/-- Claim C7: Run decodes the metadata payload at most once, at start
before invoking the plan's execute; when no metadata payload is supplied,
no decoding occurs and execute receives nil metadata, which is legal and
not an error: the trace is a decode block of at most one event, followed
by context creation, the execute call, and cancellation, and with the
metadata pointer nil the block is empty and execute gets none. -/
theorem run_decode_at_most_once (ctx : Context) (p : Plan)
    (mods : List (runOptions → runOptions)) :
    ∃ pre,
      (Run ctx p mods).2 = pre ++
        [Event.ctxCreated ctx (Context.withCancel ctx),
          Event.executed (Context.withCancel ctx) (runMetadata mods),
          Event.cancelled (Context.withCancel ctx)] ∧
      pre.length ≤ 1 ∧
      (∀ e ∈ pre, ∃ b, e = Event.decode b) ∧
      ((foldMods mods).metadata = none →
        pre = [] ∧ runMetadata mods = none) := by
  rcases h : (foldMods mods).metadata with _ | b
  · refine ⟨[], ?_, by simp, by simp, fun _ => ⟨rfl, ?_⟩⟩
    · simp [Run, h]
    · simp [runMetadata, h]
  · refine ⟨[Event.decode b], ?_, by simp, by simp, fun hn => ?_⟩
    · simp [Run, h]
    · simp at hn

/-- Witness for C7 at a concrete run with no modifiers: the trace has no
decode event and execute receives nil metadata. -/
theorem run_decode_at_most_once_w :
    (Run Context.background { execute := fun _ _ => none } []).2 =
      [Event.ctxCreated Context.background
          (Context.withCancel Context.background),
        Event.executed (Context.withCancel Context.background) none,
        Event.cancelled (Context.withCancel Context.background)] := by
  obtain ⟨pre, hpre, -, -, hnone⟩ :=
    run_decode_at_most_once Context.background
      { execute := fun _ _ => none } []
  obtain ⟨h1, h2⟩ := hnone rfl
  rw [hpre, h1, h2, List.nil_append]

/-- Claim C8: the exit-code mapping is a pure function of the error value
returned by execute: any two runs (of any plans, parent contexts — with
any cancellation state — and modifiers) whose execute calls return the
same error value yield the same exit code from Run. -/
theorem run_code_pure_in_error (ctx1 ctx2 : Context) (p q : Plan)
    (mods1 mods2 : List (runOptions → runOptions))
    (h : p.execute (Context.withCancel ctx1) (runMetadata mods1) =
      q.execute (Context.withCancel ctx2) (runMetadata mods2)) :
    (Run ctx1 p mods1).1 = (Run ctx2 q mods2).1 :=
  congrArg exitCode h

/-- Witness for C8: a run under an already-cancelled parent context and a
run under the background context, with context-sensitive plans returning
the same error value, yield the same exit code. -/
theorem run_code_pure_in_error_w :
    (Run { gen := 0, cancelled := true }
      { execute := fun c _ =>
          some (GoError.other (if c.cancelled then "x" else "y")) } []).1 =
    (Run Context.background
      { execute := fun _ _ => some (GoError.other "x") } []).1 :=
  run_code_pure_in_error { gen := 0, cancelled := true } Context.background
    _ _ [] [] (by simp [Context.withCancel])

/-- Claim C9: exit-code classification inspects only the error's own
dynamic type, never unwrapped causes: a non-nil error that wraps any cause
(an explicit-exit-code error or a subprocess-termination error included)
but is not itself of those dynamic types makes Run return the generic
failure code 1, while an error that is itself of the explicit-exit-code
type maps to its own code by the first switch case. -/
theorem run_no_unwrap_generic_one (ctx : Context) (p : Plan)
    (mods : List (runOptions → runOptions)) (cause : GoError) (msg : String)
    (h : p.execute (Context.withCancel ctx) (runMetadata mods) =
      some (GoError.wrapped cause msg)) :
    (Run ctx p mods).1 = 1 ∧
    (∀ n, exitCode (some (GoError.exitErr n)) = n) :=
  ⟨by simp only [Run, h, exitCode], fun _ => rfl⟩

/-- Witness for C9 at a concrete plan returning an error that wraps an
explicit exit code 9 without being of that dynamic type: Run yields 1. -/
theorem run_no_unwrap_generic_one_w :
    (Run Context.background
      { execute := fun _ _ =>
          some (GoError.wrapped (GoError.exitErr 9) "wrapped") } []).1 = 1 :=
  (run_no_unwrap_generic_one Context.background _ [] (GoError.exitErr 9)
    "wrapped" rfl).1

/-- Folding WithMetadata modifiers over any starting options leaves the
last payload in the metadata pointer. -/
theorem foldl_withMetadata_last (o : runOptions) (bs : List ByteSlice)
    (b : ByteSlice) (h : bs.getLast? = some b) :
    ((bs.map WithMetadata).foldl (fun opts mod => mod opts) o).metadata =
      some b := by
  induction bs generalizing o with
  | nil => cases h
  | cons hd t ih =>
    rw [List.map_cons, List.foldl_cons]
    cases t with
    | nil =>
      simp only [List.getLast?_singleton, Option.some.injEq] at h
      subst h
      rfl
    | cons hd2 t2 =>
      exact ih _ (by rwa [List.getLast?_cons_cons] at h)

/-- Claim C10: WithMetadata applied to a nil byte slice differs from
omitting the modifier: with WithMetadata nil the option is recorded as
present, the nil payload is decoded, and execute receives the decoded
metadata; with no modifier there is no decode and execute receives nil
metadata; and when several WithMetadata modifiers are supplied they apply
in order, the last payload being the one decoded. -/
theorem withMetadata_nil_vs_absent (ctx : Context) (p : Plan) :
    (Event.decode none ∈ (Run ctx p [WithMetadata none]).2 ∧
      Event.executed (Context.withCancel ctx) (some (DecodeAsMetadata none)) ∈
        (Run ctx p [WithMetadata none]).2) ∧
    ((∀ b, Event.decode b ∉ (Run ctx p []).2) ∧
      Event.executed (Context.withCancel ctx) none ∈ (Run ctx p []).2) ∧
    (∀ (bs : List ByteSlice) (b : ByteSlice), bs.getLast? = some b →
      (Run ctx p (bs.map WithMetadata)).2.filter Event.isDecode =
        [Event.decode b] ∧
      runMetadata (bs.map WithMetadata) = some (DecodeAsMetadata b)) := by
  have hone : (foldMods [WithMetadata none]).metadata = some none := rfl
  have hzero : (foldMods ([] : List (runOptions → runOptions))).metadata =
      none := rfl
  refine ⟨?_, ⟨?_, ?_⟩, ?_⟩
  · constructor <;> simp [Run, hone, runMetadata]
  · intro b
    simp [Run, hzero]
  · simp [Run, hzero, runMetadata]
  · intro bs b h
    have hlast : (foldMods (bs.map WithMetadata)).metadata = some b :=
      foldl_withMetadata_last runOptions.zero bs b h
    constructor
    · simp [Run, hlast, Event.isDecode]
    · simp [runMetadata, hlast]

/-- Witness for C10: with WithMetadata on the nil slice the decode of the
nil payload appears in the trace, and with two WithMetadata modifiers the
payload decoded is the second one. -/
theorem withMetadata_nil_vs_absent_w :
    Event.decode none ∈
      (Run Context.background { execute := fun _ _ => none }
        [WithMetadata none]).2 ∧
    (Run Context.background { execute := fun _ _ => none }
        ([some [1], some [2, 3]].map WithMetadata)).2.filter Event.isDecode =
      [Event.decode (some [2, 3])] :=
  ⟨(withMetadata_nil_vs_absent Context.background _).1.1,
    ((withMetadata_nil_vs_absent Context.background _).2.2
      [some [1], some [2, 3]] (some [2, 3]) rfl).1⟩

end Climate
